import Mathlib

/-!
Verification of the `sanity` binding generator: a shallow embedding of the
generation pipeline from `src/lib.rs` (directive parsing via
`DeclareInput::parse`, IDL loading via `read_idl_file`, CPI binding
synthesis via `generate_cpi_function_generic`, and module emission via
`generate_program_module`), with theorems settling the specification claims.

The Rust code emits a `proc_macro2::TokenStream`; the embedding models the
semantic content of the emitted module (constants, the `program_id()` body,
and one CPI function descriptor per instruction) as explicit structures, and
the runtime payload built by the generated code as an evaluation function
over the argument environment.
-/

namespace Sanity

/-- An argument of an instruction (`struct Arg`): name and an opaque
`type` value (`serde_json::Value`, carried but never interpreted; modelled
as an opaque string). -/
structure Arg where
  name : String
  arg_type : String
deriving DecidableEq, Repr

/-- An account of an instruction (`struct Account`): name plus the two
permission flags `is_mut` and `is_signer` (each `#[serde(default)]`, so
defaulting to `false`). Unrecognized fields (`#[serde(flatten)]
other_fields`) are carried but never consulted by synthesis; modelled as an
opaque association list. -/
structure Account where
  name : String
  is_mut : Bool
  is_signer : Bool
  other_fields : List (String × String) := []
deriving DecidableEq, Repr

/-- One instruction of the IDL (`struct Instruction`): name, ordered
accounts, ordered args (`#[serde(default)]`, so defaulting to empty), and
unused flattened extra fields. -/
structure Instruction where
  name : String
  accounts : List Account
  args : List Arg := []
  other_fields : List (String × String) := []
deriving DecidableEq, Repr

/-- The canonical, version-independent IDL (`struct Idl`). -/
structure Idl where
  name : String
  instructions : List Instruction
deriving DecidableEq, Repr

/-- A v1 IDL document (`struct IdlV1`): top-level `name`, `instructions`,
plus flattened unrecognized fields. -/
structure IdlV1 where
  name : String
  instructions : List Instruction
  other_fields : List (String × String) := []
deriving DecidableEq, Repr

/-- The v2 metadata block (`struct IdlMetadata`). -/
structure IdlMetadata where
  name : String
  version : String
  spec : String
deriving DecidableEq, Repr

/-- A v2 IDL document (`struct IdlV2`): `metadata`, `instructions`, plus
flattened unrecognized fields. -/
structure IdlV2 where
  metadata : IdlMetadata
  instructions : List Instruction
  other_fields : List (String × String) := []
deriving DecidableEq, Repr

/-- A parameter of a generated CPI function: the Rust code emits either
`#name: &AccountInfo` (one per account) or `#name: Vec<u8>` (one per arg). -/
inductive Param where
  | accountRef (name : String)
  | bytesArg (name : String)
deriving DecidableEq, Repr

/-- One emitted `AccountMeta` constructor call, as selected by the
`match (account.is_mut, account.is_signer)` in
`generate_cpi_function_generic`; the payload is the account parameter name
whose `.key()` is passed. -/
inductive AccountMeta where
  | writable_signer (key : String)
  | writable (key : String)
  | readonly_signer (key : String)
  | readonly (key : String)
deriving DecidableEq, Repr

/-- The emitted instruction-data expression: `vec![#discriminant]` when the
instruction has no args, otherwise the block that starts from
`vec![#discriminant]` and `extend`s with each argument in declared order. -/
inductive InstructionData where
  | litDisc (discriminant : Nat)
  | discExtend (discriminant : Nat) (arg_names : List String)
deriving DecidableEq, Repr

/-- The discriminant byte that heads the emitted data expression. -/
def InstructionData.disc : InstructionData → Nat
  | .litDisc d => d
  | .discExtend d _ => d

/-- Runtime value of the emitted data expression, given the byte vector
bound to each argument parameter name: `vec![#discriminant]` evaluates to
the one-byte vector, and the extend-block evaluates to the discriminant
byte followed by the argument byte vectors concatenated in order. -/
def InstructionData.eval (env : String → List Nat) : InstructionData → List Nat
  | .litDisc d => [d]
  | .discExtend d arg_names => d :: (arg_names.map env).flatten

/-- The semantic content of one generated CPI function. -/
structure CpiFunction where
  function_name : String
  all_params : List Param
  account_metas : List AccountMeta
  account_infos : List String
  instruction_data : InstructionData
deriving DecidableEq, Repr

/-- The `match (account.is_mut, account.is_signer)` arm selection from
`generate_cpi_function_generic` (lib.rs lines 117-122), factored as a named
function: `(true,true)` → `writable_signer`, `(true,false)` → `writable`,
`(false,true)` → `readonly_signer`, `(false,false)` → `readonly`. -/
def accountMetaFor (account : Account) : AccountMeta :=
  match account.is_mut, account.is_signer with
  | true, true => .writable_signer account.name
  | true, false => .writable account.name
  | false, true => .readonly_signer account.name
  | false, false => .readonly account.name

/-- `generate_cpi_function_generic` (lib.rs lines 91-169): account
parameters, then arg parameters; one `AccountMeta` per account; one
account-info reference per account; and the data expression, which is
`vec![#discriminant]` when `instruction.args.is_empty()` and the
extend-block otherwise. -/
def generate_cpi_function_generic (instruction : Instruction)
    (discriminant : Nat) : CpiFunction :=
  let account_params := instruction.accounts.map (fun a => Param.accountRef a.name)
  let arg_params := instruction.args.map (fun a => Param.bytesArg a.name)
  let all_params := account_params ++ arg_params
  let account_metas := instruction.accounts.map accountMetaFor
  let account_infos := instruction.accounts.map (fun a => a.name)
  let instruction_data :=
    if instruction.args.isEmpty then
      InstructionData.litDisc discriminant
    else
      InstructionData.discExtend discriminant (instruction.args.map (fun a => a.name))
  ⟨instruction.name, all_params, account_metas, account_infos, instruction_data⟩

/-- The semantic content of the code emitted by
`generate_program_id_constant`: the value of the `PROGRAM_ID` string
constant and the 32-byte array returned by the emitted `program_id()`
function body. -/
structure ProgramIdCode where
  program_id_const : String
  program_id_body : List Nat
deriving DecidableEq, Repr

/-- `generate_program_id_constant` (lib.rs lines 66-89): with an `id`, the
`PROGRAM_ID` constant is that string; without, it is the sentinel
`"11111111111111111111111111111111"`. In both branches the emitted
`program_id()` body is the literal `[0u8; 32]`. -/
def generate_program_id_constant (program_id : Option String) : ProgramIdCode :=
  match program_id with
  | some id => ⟨id, List.replicate 32 0⟩
  | none => ⟨"11111111111111111111111111111111", List.replicate 32 0⟩

/-- The semantic content of the emitted module. -/
structure GeneratedModule where
  module_name : String
  instruction_count : Nat
  instruction_names : List String
  program_id_code : ProgramIdCode
  cpi_functions : List CpiFunction
deriving DecidableEq, Repr

/-- `generate_program_module` (lib.rs lines 30-64): `MODULE_NAME` is the
directive name, `INSTRUCTION_COUNT` is `idl.instructions.len()`,
`INSTRUCTIONS` lists the instruction names in order, and one CPI function
is generated per instruction via `enumerate()`, the index narrowed with
`index as u8` (modelled as `% 256`). The function is total: there is no
error path. -/
def generate_program_module (module_name : String) (program_id : Option String)
    (idl : Idl) : GeneratedModule :=
  let instruction_count := idl.instructions.length
  let instruction_names := idl.instructions.map (fun i => i.name)
  let program_id_code := generate_program_id_constant program_id
  let cpi_functions := idl.instructions.enum.map
    (fun p => generate_cpi_function_generic p.2 (p.1 % 256))
  ⟨module_name, instruction_count, instruction_names, program_id_code, cpi_functions⟩

example :
    (generate_program_module "m" none ⟨"p", [⟨"ix", [⟨"a", true, false, []⟩], [], []⟩]⟩).instruction_count = 1 := by
  decide

example :
    (generate_cpi_function_generic ⟨"ix", [], [⟨"amount", "u64"⟩], []⟩ 7).instruction_data.eval
      (fun _ => [9, 9]) = [7, 9, 9] := by
  decide

/-! ## Directive Reader: `DeclareInput::parse`

The macro input is a flat sequence of `key = value` pairs. syn-level
tokenization (identifiers, `=`, the optional comma separators handled by
`input.peek(Token![,])`) is host-language mechanics outside the core; the
embedding starts from the extracted sequence of key/literal pairs, exactly
the order in which the parse loop consumes them. -/

/-- A literal value on the right of `=`: either a string literal
(`syn::LitStr`) or an integer literal (`syn::LitInt`, base-10 value). -/
inductive Lit where
  | str (s : String)
  | int (n : Nat)
deriving DecidableEq, Repr

/-- The errors `DeclareInput::parse` can produce. `unknownKey` carries the
offending key, mirroring `syn::Error::new_spanned(key, ...)`, which attaches
the key token to the error; the fixed message text is `parseErrorMessage`.
`expectedStrLit` / `expectedIntLit` model the syn error when the value after
`=` is not the literal kind the arm parses; `intOutOfRange` models
`base10_parse::<u32>()` failing on a literal exceeding `u32::MAX`. -/
inductive ParseError where
  | unknownKey (key : String)
  | expectedStrLit (key : String)
  | expectedIntLit (key : String)
  | intOutOfRange (key : String)
  | missingName
  | missingIdlPath
deriving DecidableEq, Repr

/-- The message text attached to each `syn::Error` built in
`DeclareInput::parse` (the `expected*` / `intOutOfRange` messages are syn's
own and are not modelled textually). -/
def parseErrorMessage : ParseError → String
  | .unknownKey _ => "Unknown key. Expected 'name', 'id', 'idl_path', or 'idl_version'"
  | .expectedStrLit _ => "expected string literal"
  | .expectedIntLit _ => "expected integer literal"
  | .intOutOfRange _ => "number too large to fit in target type"
  | .missingName => "Missing 'name' parameter"
  | .missingIdlPath => "Missing 'idl_path' parameter"

/-- The validated directive (`struct DeclareInput`). -/
structure DeclareInput where
  name : String
  id : Option String
  idl_path : String
  idl_version : Option Nat
deriving DecidableEq, Repr

/-- The four mutable locals of the parse loop
(`let mut name/id/idl_path/idl_version = None`). -/
structure ParseState where
  name : Option String
  id : Option String
  idl_path : Option String
  idl_version : Option Nat
deriving DecidableEq, Repr

/-- One iteration of the `while !input.is_empty()` loop: match on the key
string and parse the value as the literal kind that arm expects, assigning
`Some(value)` over whatever the local held before; any other key is an
`unknownKey` error. -/
def parseStep (st : ParseState) (key : String) (value : Lit) :
    Except ParseError ParseState :=
  if key == "name" then
    match value with
    | .str s => .ok { st with name := some s }
    | _ => .error (.expectedStrLit key)
  else if key == "id" then
    match value with
    | .str s => .ok { st with id := some s }
    | _ => .error (.expectedStrLit key)
  else if key == "idl_path" then
    match value with
    | .str s => .ok { st with idl_path := some s }
    | _ => .error (.expectedStrLit key)
  else if key == "idl_version" then
    match value with
    | .int n => if n < 4294967296 then .ok { st with idl_version := some n }
                else .error (.intOutOfRange key)
    | _ => .error (.expectedIntLit key)
  else .error (.unknownKey key)

/-- The whole `while` loop, threading the four locals over the key/value
sequence; the first failing iteration aborts the loop (`?` operator). -/
def parseLoop (st : ParseState) : List (String × Lit) → Except ParseError ParseState
  | [] => .ok st
  | (k, v) :: rest =>
    match parseStep st k v with
    | .ok st' => parseLoop st' rest
    | .error e => .error e

/-- `DeclareInput::parse` (lib.rs lines 178-224): run the loop from the
all-`None` state, then require `name` and `idl_path` (in that order) and
default `idl_version` with `.or(Some(1))`. -/
def DeclareInput.parse (input : List (String × Lit)) : Except ParseError DeclareInput :=
  match parseLoop ⟨none, none, none, none⟩ input with
  | .error e => .error e
  | .ok st =>
    match st.name with
    | none => .error .missingName
    | some n =>
      match st.idl_path with
      | none => .error .missingIdlPath
      | some p => .ok ⟨n, st.id, p, st.idl_version.or (some 1)⟩

example :
    DeclareInput.parse [("name", .str "m"), ("idl_path", .str "a.json")] =
      .ok ⟨"m", none, "a.json", some 1⟩ := rfl

example :
    DeclareInput.parse [("name", .str "m"), ("name", .str "m2"), ("idl_path", .str "a.json")] =
      .ok ⟨"m2", none, "a.json", some 1⟩ := rfl

example :
    DeclareInput.parse [("idl_path", .str "a.json")] = .error .missingName := rfl

example :
    DeclareInput.parse [("name", .str "m"), ("version", .int 2)] =
      .error (.unknownKey "version") := rfl

/-! ## Schema Loader: `read_idl_file`

`read_idl_file` first reads the file's full text
(`std::fs::read_to_string(path)?`) and only then dispatches on
`version.unwrap_or(1)`. The file system and the two serde_json
deserializers are external collaborators; the embedding takes them as
parameters, so every theorem below holds for every file system and every
parser behavior. -/

/-- A file-system failure from `std::fs::read_to_string` (an opaque
`std::io::Error`, modelled by its display text). -/
structure FsError where
  msg : String
deriving DecidableEq, Repr

/-- The errors `read_idl_file` can produce, in structured form; the display
text is `idlErrorMessage`. -/
inductive IdlError where
  | fsError (e : FsError)
  | parseV1Error (underlying : String)
  | parseV2Error (underlying : String)
  | unsupportedVersion (requested : Nat)
deriving DecidableEq, Repr

/-- The display text of each `read_idl_file` error, exactly as formatted in
lib.rs (the `format!` calls at lines 305, 314 and 322). -/
def idlErrorMessage : IdlError → String
  | .fsError e => e.msg
  | .parseV1Error u => "Failed to parse as V1 IDL: " ++ u
  | .parseV2Error u => "Failed to parse as V2 IDL: " ++ u
  | .unsupportedVersion v =>
      "Unsupported IDL version: " ++ toString v ++ ". Supported versions: 1, 2"

/-- `read_idl_file` (lib.rs lines 299-325), parametrized by the file system
(`readToString`) and the two serde_json deserializers. The text is read
first; then `version.unwrap_or(1)` selects: 1 deserializes as `IdlV1` with
the program name taken from its `name`; 2 deserializes as `IdlV2` with the
name from `metadata.name`; anything else is the unsupported-version error
(which also formats `version.unwrap_or(1)` — in that arm `version` is
necessarily `some v` with `v` outside `{1, 2}`, so the formatted value is
the requested one). -/
def read_idl_file
    (readToString : String → Except FsError String)
    (parseV1 : String → Except String IdlV1)
    (parseV2 : String → Except String IdlV2)
    (path : String) (version : Option Nat) : Except IdlError Idl :=
  match readToString path with
  | .error e => .error (.fsError e)
  | .ok content =>
    match version.getD 1 with
    | 1 =>
      match parseV1 content with
      | .error e => .error (.parseV1Error e)
      | .ok idl_v1 => .ok ⟨idl_v1.name, idl_v1.instructions⟩
    | 2 =>
      match parseV2 content with
      | .error e => .error (.parseV2Error e)
      | .ok idl_v2 => .ok ⟨idl_v2.metadata.name, idl_v2.instructions⟩
    | _ => .error (.unsupportedVersion (version.getD 1))

example :
    read_idl_file (fun _ => .ok "{}") (fun _ => .ok ⟨"p", [], []⟩)
      (fun _ => .error "no") "a.json" (some 3) = .error (.unsupportedVersion 3) := rfl

example :
    read_idl_file (fun _ => .error ⟨"No such file"⟩) (fun _ => .ok ⟨"p", [], []⟩)
      (fun _ => .error "no") "a.json" (some 3) = .error (.fsError ⟨"No such file"⟩) := rfl

/-! ## Helper predicates and the parse-loop characterization -/

/-- A key the `match` in `DeclareInput::parse` recognizes. -/
def recognizedKey (k : String) : Bool :=
  k == "name" || k == "id" || k == "idl_path" || k == "idl_version"

/-- An entry the parse loop accepts without error: a recognized key whose
value is the literal kind that key's arm parses (a string literal for the
three string keys, an in-range integer literal for `idl_version`). -/
def validEntry (kv : String × Lit) : Bool :=
  match kv with
  | (k, .str _) => k == "name" || k == "id" || k == "idl_path"
  | (k, .int n) => k == "idl_version" && decide (n < 4294967296)

/-- Whether some entry of the key/value sequence uses the given key. -/
def hasKey (k : String) (kvs : List (String × Lit)) : Bool :=
  kvs.any (fun kv => kv.1 == k)

/-- The string value of the last occurrence of key `k` in the sequence
(starting from `d`): the reference "last write wins" fold. -/
def lastStrVal (k : String) (d : Option String) : List (String × Lit) → Option String
  | [] => d
  | (k', .str s) :: rest => lastStrVal k (if k' == k then some s else d) rest
  | (_, .int _) :: rest => lastStrVal k d rest

/-- The integer value of the last occurrence of key `k` in the sequence
(starting from `d`). -/
def lastIntVal (k : String) (d : Option Nat) : List (String × Lit) → Option Nat
  | [] => d
  | (k', .int n) :: rest => lastIntVal k (if k' == k then some n else d) rest
  | (_, .str _) :: rest => lastIntVal k d rest

/-- On a sequence of accepted entries the parse loop never fails, and each
of the four locals ends up holding the value of the last occurrence of its
key: each loop arm assigns `Some(value)` over whatever the local held. -/
theorem parseLoop_valid (kvs : List (String × Lit)) :
    ∀ st : ParseState, (∀ kv ∈ kvs, validEntry kv = true) →
      parseLoop st kvs = .ok
        ⟨lastStrVal "name" st.name kvs, lastStrVal "id" st.id kvs,
         lastStrVal "idl_path" st.idl_path kvs,
         lastIntVal "idl_version" st.idl_version kvs⟩ := by
  induction kvs with
  | nil => intro st _; rfl
  | cons kv rest ih =>
    intro st h
    obtain ⟨k, v⟩ := kv
    have hkv : validEntry (k, v) = true := h _ (List.mem_cons_self _ _)
    have hrest : ∀ kv ∈ rest, validEntry kv = true :=
      fun kv hm => h kv (List.mem_cons_of_mem _ hm)
    cases v with
    | str s =>
      have hk : k = "name" ∨ k = "id" ∨ k = "idl_path" := by
        simp only [validEntry, Bool.or_eq_true, beq_iff_eq] at hkv
        tauto
      rcases hk with hk | hk | hk <;> subst hk <;>
        simp only [parseLoop, parseStep, lastStrVal, lastIntVal, ih _ hrest] <;> rfl
    | int n =>
      have hk : k = "idl_version" ∧ n < 4294967296 := by
        simp only [validEntry, Bool.and_eq_true, beq_iff_eq, decide_eq_true_eq] at hkv
        exact hkv
      obtain ⟨hk, hn⟩ := hk
      subst hk
      simp only [parseLoop, parseStep, if_pos hn, lastStrVal, lastIntVal, ih _ hrest]
      rfl

/-- A key that never occurs leaves the fold at its starting value. -/
theorem lastStrVal_of_not_hasKey (k : String) (kvs : List (String × Lit)) :
    ∀ d : Option String, hasKey k kvs = false → lastStrVal k d kvs = d := by
  induction kvs with
  | nil => intro d _; rfl
  | cons kv rest ih =>
    intro d h
    obtain ⟨k', v⟩ := kv
    simp only [hasKey, List.any_cons, Bool.or_eq_false_iff] at h
    cases v with
    | str s =>
      have hne : (k' == k) = false := h.1
      simp only [lastStrVal, hne, Bool.false_eq_true, if_false]
      exact ih d h.2
    | int n => exact ih d h.2

/-- The fold never discards an already-present value. -/
theorem lastStrVal_isSome_of_isSome (k : String) (kvs : List (String × Lit)) :
    ∀ d : Option String, d.isSome = true → (lastStrVal k d kvs).isSome = true := by
  induction kvs with
  | nil => intro d hd; exact hd
  | cons kv rest ih =>
    intro d hd
    obtain ⟨k', v⟩ := kv
    cases v with
    | str s =>
      simp only [lastStrVal]
      by_cases hk : (k' == k) = true
      · rw [if_pos hk]; exact ih _ rfl
      · rw [if_neg hk]; exact ih _ hd
    | int n => exact ih _ hd

/-- If one of the three string keys occurs among accepted entries, the fold
ends holding some value. -/
theorem lastStrVal_isSome_of_hasKey (k : String)
    (hks : (k == "name" || k == "id" || k == "idl_path") = true)
    (kvs : List (String × Lit)) :
    ∀ d : Option String, (∀ kv ∈ kvs, validEntry kv = true) →
      hasKey k kvs = true → (lastStrVal k d kvs).isSome = true := by
  induction kvs with
  | nil => intro d _ h; simp [hasKey] at h
  | cons kv rest ih =>
    intro d hvalid h
    obtain ⟨k', v⟩ := kv
    have hrest : ∀ kv ∈ rest, validEntry kv = true :=
      fun kv hm => hvalid kv (List.mem_cons_of_mem _ hm)
    simp only [hasKey, List.any_cons, Bool.or_eq_true] at h
    cases v with
    | str s =>
      simp only [lastStrVal]
      by_cases hk : (k' == k) = true
      · rw [if_pos hk]; exact lastStrVal_isSome_of_isSome _ _ _ rfl
      · rw [if_neg hk]
        rcases h with h | h
        · exact absurd h hk
        · exact ih d hrest h
    | int n =>
      rcases h with h | h
      · exfalso
        have hent : validEntry (k', .int n) = true := hvalid _ (List.mem_cons_self _ _)
        simp only [validEntry, Bool.and_eq_true, beq_iff_eq] at hent
        have hkk : k' = k := by simpa using h
        subst hkk
        rw [hent.1] at hks
        simp at hks
      · exact ih d hrest h

/-- Splitting the parse loop at an append. -/
theorem parseLoop_append (l₁ l₂ : List (String × Lit)) :
    ∀ st : ParseState, parseLoop st (l₁ ++ l₂) =
      match parseLoop st l₁ with
      | .ok st' => parseLoop st' l₂
      | .error e => .error e := by
  induction l₁ with
  | nil => intro st; rfl
  | cons kv rest ih =>
    intro st
    obtain ⟨k, v⟩ := kv
    simp only [List.cons_append, parseLoop]
    cases parseStep st k v with
    | ok st' => exact ih st'
    | error e => rfl

/-- An unrecognized key falls through every arm of the `match` to the
`unknownKey` error, regardless of the value after `=`. -/
theorem parseStep_unknownKey (st : ParseState) (k : String) (v : Lit)
    (h : recognizedKey k = false) : parseStep st k v = .error (.unknownKey k) := by
  simp only [recognizedKey, Bool.or_eq_false_iff] at h
  simp only [parseStep, h.1.1.1, h.1.1.2, h.1.2, h.2]
  rfl

/-! ## Facts about the synthesized CPI functions -/

/-- The discriminant passed to `generate_cpi_function_generic` heads the
emitted data expression in both branches of the `if`. -/
theorem disc_of_generate (ins : Instruction) (d : Nat) :
    (generate_cpi_function_generic ins d).instruction_data.disc = d := by
  simp only [generate_cpi_function_generic]
  by_cases h : ins.args.isEmpty <;> simp [h, InstructionData.disc]

/-- The generated function carries the instruction's name. -/
theorem name_of_generate (ins : Instruction) (d : Nat) :
    (generate_cpi_function_generic ins d).function_name = ins.name := rfl

/-- Position `j` of the emitted CPI-function list holds the function
generated from instruction `j` with discriminant `j % 256` (the `index as
u8` narrowing). -/
theorem cpi_functions_getElem? (mn : String) (pid : Option String) (idl : Idl)
    (j : Nat) :
    (generate_program_module mn pid idl).cpi_functions[j]? =
      (idl.instructions[j]?).map (fun ins => generate_cpi_function_generic ins (j % 256)) := by
  simp only [generate_program_module, List.getElem?_map, List.getElem?_enum, Option.map_map]
  cases idl.instructions[j]? <;> rfl

/-- A 257-instruction IDL: one more instruction than the 256 distinct
values a single discriminant byte can hold. -/
def idl257 : Idl := ⟨"big", List.replicate 257 ⟨"ix", [], [], []⟩⟩

/-- `idl257` declares 257 instructions. -/
theorem idl257_length : idl257.instructions.length = 257 := by
  simp only [idl257, List.length_replicate]

/-! ## Claims -/

/-- Claim C1, counterexample: on a document with 257 instructions
(`idl257`), generation does not fail — `generate_program_module` has no
error path at all — and produces a complete module whose
`INSTRUCTION_COUNT` is 257 and which contains one callable binding per
instruction, contradicting the claim that such a document yields a
synthesis-limit error rather than a module. -/
theorem c1_counterexample :
    (generate_program_module "big_module" none idl257).instruction_count = 257 ∧
    (generate_program_module "big_module" none idl257).cpi_functions.length = 257 := by
  constructor
  · simp only [generate_program_module]
    exact idl257_length
  · simp only [generate_program_module, List.length_map, List.enum_length]
    exact idl257_length

/-- Claim C1 (amended): generation never fails on the instruction count;
for every document a module is produced with exactly one callable binding
per instruction, and the `i`-th binding's discriminant is `i % 256` (the
enumeration index narrowed with `index as u8`). -/
theorem c1_amended_no_synthesis_limit (mn : String) (pid : Option String) (idl : Idl) :
    (generate_program_module mn pid idl).cpi_functions.length = idl.instructions.length ∧
    ∀ i : Nat,
      ((generate_program_module mn pid idl).cpi_functions[i]?).map
          (fun f => f.instruction_data.disc) =
        (idl.instructions[i]?).map (fun _ => i % 256) := by
  constructor
  · simp [generate_program_module, List.enum_length]
  · intro i
    rw [cpi_functions_getElem?, Option.map_map]
    cases idl.instructions[i]? with
    | none => rfl
    | some ins => simp [disc_of_generate]

/-- Claim C9: the instruction at zero-based index `i` is assigned
discriminant `i % 256` (the index is narrowed to a single byte by
`index as u8`), so the instruction 256 positions later — when it exists —
shares the same discriminant. -/
theorem c9_discriminant_wraps_mod_256 (mn : String) (pid : Option String)
    (idl : Idl) (i : Nat) (h : i < idl.instructions.length) :
    ((generate_program_module mn pid idl).cpi_functions[i]?).map
        (fun f => f.instruction_data.disc) = some (i % 256) ∧
    (i + 256 < idl.instructions.length →
      ((generate_program_module mn pid idl).cpi_functions[i + 256]?).map
          (fun f => f.instruction_data.disc) = some (i % 256)) := by
  have key : ∀ j : Nat, j < idl.instructions.length →
      ((generate_program_module mn pid idl).cpi_functions[j]?).map
          (fun f => f.instruction_data.disc) = some (j % 256) := by
    intro j hj
    rw [cpi_functions_getElem?, Option.map_map]
    rw [List.getElem?_eq_getElem hj]
    simp [disc_of_generate]
  refine ⟨key i h, fun h2 => ?_⟩
  have := key (i + 256) h2
  rwa [Nat.add_mod_right] at this

/-- Witness for C9 at a concrete 257-instruction document: the instructions
at indices 0 and 256 both receive discriminant 0. -/
theorem c9_witness :
    ((generate_program_module "big_module" none idl257).cpi_functions[0]?).map
        (fun f => f.instruction_data.disc) = some 0 ∧
    ((generate_program_module "big_module" none idl257).cpi_functions[256]?).map
        (fun f => f.instruction_data.disc) = some 0 := by
  have h := c9_discriminant_wraps_mod_256 "big_module" none idl257 0
    (by rw [idl257_length]; omega)
  exact ⟨h.1, h.2 (by rw [idl257_length]; omega)⟩

/-- Claim C5: for a well-formed document (at most 256 instructions, so
every index fits the discriminant byte), the canonical program's
instruction sequence is the document's `instructions` array verbatim, and
the emitted module lists and binds the instructions in that order, the
`i`-th binding carrying the instruction's name and discriminant `i`. -/
theorem c5_order_and_position_discriminant
    (readToString : String → Except FsError String)
    (parseV1 : String → Except String IdlV1) (parseV2 : String → Except String IdlV2)
    (path content : String) (doc : IdlV1) (mn : String) (pid : Option String)
    (idl : Idl)
    (hread : readToString path = .ok content)
    (hparse : parseV1 content = .ok doc)
    (hwf : doc.instructions.length ≤ 256)
    (hidl : read_idl_file readToString parseV1 parseV2 path (some 1) = .ok idl) :
    idl.instructions = doc.instructions ∧
    (generate_program_module mn pid idl).instruction_names =
      doc.instructions.map (fun ins => ins.name) ∧
    ∀ i : Nat, i < doc.instructions.length →
      ((generate_program_module mn pid idl).cpi_functions[i]?).map
          (fun f => (f.function_name, f.instruction_data.disc)) =
        (doc.instructions[i]?).map (fun ins => (ins.name, i)) := by
  have hidl2 : read_idl_file readToString parseV1 parseV2 path (some 1) =
      .ok ⟨doc.name, doc.instructions⟩ := by
    unfold read_idl_file
    rw [hread]
    simp [hparse]
  rw [hidl2] at hidl
  obtain rfl : idl = ⟨doc.name, doc.instructions⟩ := (Except.ok.inj hidl).symm
  refine ⟨rfl, rfl, fun i hi => ?_⟩
  rw [cpi_functions_getElem?, Option.map_map]
  rw [List.getElem?_eq_getElem hi]
  simp [disc_of_generate, name_of_generate, Nat.mod_eq_of_lt (lt_of_lt_of_le hi hwf)]

/-- Witness for C5 at a concrete two-instruction v1 document: the loader
passes the instructions through verbatim and the second binding is named
after the second instruction with discriminant 1. -/
theorem c5_witness :
    (⟨"tok", [⟨"init", [], [], []⟩, ⟨"transfer", [], [], []⟩]⟩ : Idl).instructions =
      [⟨"init", [], [], []⟩, ⟨"transfer", [], [], []⟩] ∧
    ((generate_program_module "m" none
        ⟨"tok", [⟨"init", [], [], []⟩, ⟨"transfer", [], [], []⟩]⟩).cpi_functions[1]?).map
        (fun f => (f.function_name, f.instruction_data.disc)) = some ("transfer", 1) := by
  have h := c5_order_and_position_discriminant
    (fun _ => .ok "text") (fun _ => .ok ⟨"tok", [⟨"init", [], [], []⟩, ⟨"transfer", [], [], []⟩], []⟩)
    (fun _ => .error "unused") "tok.json" "text"
    ⟨"tok", [⟨"init", [], [], []⟩, ⟨"transfer", [], [], []⟩], []⟩ "m" none
    ⟨"tok", [⟨"init", [], [], []⟩, ⟨"transfer", [], [], []⟩]⟩
    rfl rfl (by norm_num) rfl
  exact ⟨h.1, h.2.2 1 (by norm_num)⟩

/-- Claim C7: whether or not an `id` is supplied, the emitted
`program_id()` body is the fixed all-zero 32-byte address, regardless of
the textual program identifier. -/
theorem c7_program_id_always_zero_address (pid : Option String) (mn : String)
    (idl : Idl) :
    (generate_program_id_constant pid).program_id_body = List.replicate 32 0 ∧
    (generate_program_module mn pid idl).program_id_code.program_id_body =
      List.replicate 32 0 := by
  cases pid <;> exact ⟨rfl, rfl⟩

/-- Claim C10: a well-formed document with an empty `instructions` array
generates successfully (there is no error path): `INSTRUCTION_COUNT` is 0,
the `INSTRUCTIONS` listing is empty, and no callable bindings are
emitted. -/
theorem c10_empty_instructions_module (mn pname : String) (pid : Option String) :
    (generate_program_module mn pid ⟨pname, []⟩).instruction_count = 0 ∧
    (generate_program_module mn pid ⟨pname, []⟩).instruction_names = [] ∧
    (generate_program_module mn pid ⟨pname, []⟩).cpi_functions = [] :=
  ⟨rfl, rfl, rfl⟩

/-- Claim C3: an instruction's wire payload is the single discriminant byte
when it has zero arguments, and otherwise the discriminant byte followed by
the argument byte sequences concatenated in declared order with no length
prefixes, separators, or padding (`flatten` of the per-argument bytes). -/
theorem c3_payload_assembly (ins : Instruction) (d : Nat) (env : String → List Nat) :
    (ins.args = [] →
      (generate_cpi_function_generic ins d).instruction_data.eval env = [d]) ∧
    (ins.args ≠ [] →
      (generate_cpi_function_generic ins d).instruction_data.eval env =
        d :: (ins.args.map (fun a => env a.name)).flatten) := by
  constructor
  · intro h
    simp [generate_cpi_function_generic, h, InstructionData.eval]
  · intro h
    simp only [generate_cpi_function_generic]
    rw [if_neg (by simpa [List.isEmpty_iff] using h)]
    simp [InstructionData.eval, List.map_map]
    rfl

/-- Witness for C3: a zero-argument instruction yields exactly the
discriminant byte `[5]`; a two-argument instruction yields the discriminant
byte followed by the two argument byte sequences in order. -/
theorem c3_witness :
    (generate_cpi_function_generic ⟨"revoke", [], [], []⟩ 5).instruction_data.eval
      (fun _ => [7, 7]) = [5] ∧
    (generate_cpi_function_generic
        ⟨"transfer", [], [⟨"amount", "u64"⟩, ⟨"decimals", "u8"⟩], []⟩ 3).instruction_data.eval
      (fun n => if n == "amount" then [1, 2] else [9]) = [3, 1, 2, 9] := by
  constructor
  · exact (c3_payload_assembly ⟨"revoke", [], [], []⟩ 5 (fun _ => [7, 7])).1 rfl
  · have h := (c3_payload_assembly
      ⟨"transfer", [], [⟨"amount", "u64"⟩, ⟨"decimals", "u8"⟩], []⟩ 3
      (fun n => if n == "amount" then [1, 2] else [9])).2 (by decide)
    rw [h]
    rfl

/-- Claim C4: the permission classification is the total four-way function
of `(is_mut, is_signer)` given by the `match`: `(true,true)` →
writable-signer, `(true,false)` → writable, `(false,true)` →
readonly-signer, `(false,false)` → readonly; every account receives exactly
one of the four tags, and the synthesizer applies it to every account in
order. -/
theorem c4_permission_classification :
    (∀ (nm : String) (of : List (String × String)),
        accountMetaFor ⟨nm, true, true, of⟩ = .writable_signer nm ∧
        accountMetaFor ⟨nm, true, false, of⟩ = .writable nm ∧
        accountMetaFor ⟨nm, false, true, of⟩ = .readonly_signer nm ∧
        accountMetaFor ⟨nm, false, false, of⟩ = .readonly nm) ∧
    (∀ a : Account,
        accountMetaFor a = .writable_signer a.name ∨
        accountMetaFor a = .writable a.name ∨
        accountMetaFor a = .readonly_signer a.name ∨
        accountMetaFor a = .readonly a.name) ∧
    (∀ (ins : Instruction) (d : Nat),
        (generate_cpi_function_generic ins d).account_metas =
          ins.accounts.map accountMetaFor) := by
  refine ⟨fun nm of => ⟨rfl, rfl, rfl, rfl⟩, fun a => ?_, fun ins d => rfl⟩
  obtain ⟨nm, m, s, of⟩ := a
  cases m <;> cases s <;> simp [accountMetaFor]

/-- Claim C2, counterexample: with an unreadable document path and
`idl_version = 3`, `read_idl_file` fails with the file-access error, not
with the unsupported-version error — the file is read before the version
dispatch, so a file-access failure does preempt the unsupported-version
error, contradicting the claim. -/
theorem c2_counterexample :
    read_idl_file (fun _ => .error ⟨"No such file or directory (os error 2)"⟩)
      (fun _ => .error "unused") (fun _ => .error "unused") "missing.json" (some 3) =
        .error (.fsError ⟨"No such file or directory (os error 2)"⟩) ∧
    ¬ read_idl_file (fun _ => .error ⟨"No such file or directory (os error 2)"⟩)
      (fun _ => .error "unused") (fun _ => .error "unused") "missing.json" (some 3) =
        .error (.unsupportedVersion 3) := by
  refine ⟨rfl, fun h => ?_⟩
  rw [show read_idl_file (fun _ => .error ⟨"No such file or directory (os error 2)"⟩)
      (fun _ => .error "unused") (fun _ => .error "unused") "missing.json" (some 3) =
        .error (.fsError ⟨"No such file or directory (os error 2)"⟩) from rfl] at h
  exact absurd (Except.error.inj h) (by simp)

/-- Claim C2 (amended): for every `idl_version` outside `{1, 2}` on a
*readable* document path, the Schema Loader fails with the
unsupported-version error naming the requested value and the supported set
`{1, 2}`, without consulting either deserializer (the result is the same
for every `parseV1`/`parseV2` and every file content); the document's full
text is however read first, so an unreadable path reports the file-access
error instead. -/
theorem c2_amended_unsupported_version
    (readToString : String → Except FsError String)
    (parseV1 : String → Except String IdlV1) (parseV2 : String → Except String IdlV2)
    (path content : String) (v : Nat)
    (hread : readToString path = .ok content)
    (h1 : v ≠ 1) (h2 : v ≠ 2) :
    read_idl_file readToString parseV1 parseV2 path (some v) =
      .error (.unsupportedVersion v) ∧
    idlErrorMessage (.unsupportedVersion v) =
      "Unsupported IDL version: " ++ toString v ++ ". Supported versions: 1, 2" := by
  refine ⟨?_, rfl⟩
  unfold read_idl_file
  rw [hread]
  match v, h1, h2 with
  | 0, _, _ => rfl
  | 1, h1, _ => exact absurd rfl h1
  | 2, _, h2 => exact absurd rfl h2
  | (n + 3), _, _ => rfl

/-- Witness for C2 at `idl_version = 3` on a readable path: the result is
the unsupported-version error for version 3, whatever the parsers would
have said, and its message names 3 and the supported set. -/
theorem c2_witness :
    read_idl_file (fun _ => .ok "{}") (fun _ => .error "unused")
      (fun _ => .error "unused") "a.json" (some 3) = .error (.unsupportedVersion 3) ∧
    idlErrorMessage (.unsupportedVersion 3) =
      "Unsupported IDL version: 3. Supported versions: 1, 2" := by
  have h := c2_amended_unsupported_version (fun _ => .ok "{}") (fun _ => .error "unused")
    (fun _ => .error "unused") "a.json" "{}" 3 rfl (by omega) (by omega)
  exact ⟨h.1, rfl⟩

/-- Claim C6: on any directive whose entries are all recognized and
well-typed — duplicates allowed — the Directive Reader does not error, and
each recorded value is the one from the last occurrence of its key (last
write wins); `idl_version` defaults to 1 when never supplied, mirroring
`.or(Some(1))`. -/
theorem c6_duplicate_keys_last_write_wins
    (kvs : List (String × Lit)) (n p : String)
    (hvalid : ∀ kv ∈ kvs, validEntry kv = true)
    (hname : lastStrVal "name" none kvs = some n)
    (hpath : lastStrVal "idl_path" none kvs = some p) :
    DeclareInput.parse kvs =
      .ok ⟨n, lastStrVal "id" none kvs, p,
           (lastIntVal "idl_version" none kvs).or (some 1)⟩ := by
  unfold DeclareInput.parse
  rw [parseLoop_valid kvs ⟨none, none, none, none⟩ hvalid]
  simp only [hname, hpath]

/-- Witness for C6: a directive supplying `name` twice parses without error
and records the second value. -/
theorem c6_witness :
    DeclareInput.parse
        [("name", .str "first"), ("idl_path", .str "a.json"), ("name", .str "second")] =
      .ok ⟨"second", none, "a.json", some 1⟩ := by
  have h := c6_duplicate_keys_last_write_wins
    [("name", .str "first"), ("idl_path", .str "a.json"), ("name", .str "second")]
    "second" "a.json" (by decide) rfl rfl
  exact h

/-- Claim C8: on otherwise-valid directives, omitting `name` fails with the
missing-`name` error and omitting `idl_path` (with `name` present) fails
with the missing-`idl_path` error, each message naming the key; and any
entry with a key outside `{name, id, idl_path, idl_version}` fails with the
unknown-key error, which carries the offending key (the span of
`syn::Error::new_spanned`) and whose message names the allowed set. -/
theorem c8_missing_and_unknown_key_errors :
    (∀ kvs : List (String × Lit), (∀ kv ∈ kvs, validEntry kv = true) →
        hasKey "name" kvs = false →
        DeclareInput.parse kvs = .error .missingName) ∧
    (∀ kvs : List (String × Lit), (∀ kv ∈ kvs, validEntry kv = true) →
        hasKey "name" kvs = true → hasKey "idl_path" kvs = false →
        DeclareInput.parse kvs = .error .missingIdlPath) ∧
    (∀ (kvs₁ kvs₂ : List (String × Lit)) (k : String) (v : Lit),
        (∀ kv ∈ kvs₁, validEntry kv = true) → recognizedKey k = false →
        DeclareInput.parse (kvs₁ ++ (k, v) :: kvs₂) = .error (.unknownKey k)) ∧
    parseErrorMessage .missingName = "Missing 'name' parameter" ∧
    parseErrorMessage .missingIdlPath = "Missing 'idl_path' parameter" ∧
    (∀ k : String, parseErrorMessage (.unknownKey k) =
      "Unknown key. Expected 'name', 'id', 'idl_path', or 'idl_version'") := by
  refine ⟨?_, ?_, ?_, rfl, rfl, fun _ => rfl⟩
  · intro kvs hvalid hnone
    unfold DeclareInput.parse
    rw [parseLoop_valid kvs ⟨none, none, none, none⟩ hvalid]
    rw [lastStrVal_of_not_hasKey "name" kvs none hnone]
  · intro kvs hvalid hname hpath
    unfold DeclareInput.parse
    rw [parseLoop_valid kvs ⟨none, none, none, none⟩ hvalid]
    have hsome := lastStrVal_isSome_of_hasKey "name" (by decide) kvs none hvalid hname
    obtain ⟨s, hs⟩ := Option.isSome_iff_exists.mp hsome
    rw [lastStrVal_of_not_hasKey "idl_path" kvs none hpath, hs]
  · intro kvs₁ kvs₂ k v hvalid hk
    unfold DeclareInput.parse
    rw [parseLoop_append]
    rw [parseLoop_valid kvs₁ ⟨none, none, none, none⟩ hvalid]
    simp only [parseLoop, parseStep_unknownKey _ _ _ hk]

/-- Witness for C8: a directive without `name` fails with the
missing-`name` error; one with `name` but no `idl_path` fails with the
missing-`idl_path` error; one containing the unrecognized key `idl` fails
with the unknown-key error carrying that key. -/
theorem c8_witness :
    DeclareInput.parse [("idl_path", .str "a.json")] = .error .missingName ∧
    DeclareInput.parse [("name", .str "m")] = .error .missingIdlPath ∧
    DeclareInput.parse [("name", .str "m"), ("idl", .str "a.json")] =
      .error (.unknownKey "idl") := by
  refine ⟨?_, ?_, ?_⟩
  · exact c8_missing_and_unknown_key_errors.1 [("idl_path", .str "a.json")]
      (by decide) (by decide)
  · exact c8_missing_and_unknown_key_errors.2.1 [("name", .str "m")]
      (by decide) (by decide) (by decide)
  · exact c8_missing_and_unknown_key_errors.2.2.1 [("name", .str "m")] []
      "idl" (.str "a.json") (by decide) (by decide)

end Sanity
